import Mathlib

/-!
# Snake game (`snakeGame.cpp`): shallow embedding and verified properties

The game state of `snakeGame.cpp` is embedded as a record holding the snake, the
food, the score, the open/closed flag of the render window and the number of
`rand()` calls made so far.  Modelling conventions:

* `sf::Vector2f` components are modelled by `Int`.  Every coordinate the program
  builds is an integer multiple of `BLOCK_SIZE` of small magnitude, for which
  float addition and comparison are exact.
* `int score` is modelled by `Int`; `score++` is the mathematical successor (the
  C++ increment is defined for `score < 2^31 - 1` only).
* `rand()` is modelled by a stream `rnd : Nat → Nat` of the values it returns,
  together with the count of values already drawn.
* The `do ... while` loop of `generateFood` may run forever; it is modelled with
  fuel (the maximal number of loop iterations) and returns `none` when the fuel
  is used up.
* `snake.body[0]` on an empty vector is undefined; `updateSnake` returns `none`
  there.
* `updateSnake` closes `window`, the render window created in `main`; its
  `isOpen()` flag is the field `windowOpen` of the state and stands for the
  status Running / Over.  Sound and console output are not modelled.
-/

namespace SnakeGame

/-! ## Constants and data -/

/-- Window width in pixels. -/
def WIDTH : Int := 800

/-- Window height in pixels. -/
def HEIGHT : Int := 600

/-- Size of each snake segment and of the food, in pixels. -/
def BLOCK_SIZE : Int := 20

/-- Pixel coordinate pair (`sf::Vector2f`). -/
structure Vector2f where
  x : Int
  y : Int
  deriving DecidableEq, Repr

instance : Add Vector2f := ⟨fun a b => ⟨a.x + b.x, a.y + b.y⟩⟩

/-- Snake: body segments, head first, and the current movement direction. -/
structure Snake where
  body : List Vector2f
  direction : Vector2f
  deriving DecidableEq, Repr

/-- Food: a single position. -/
structure Food where
  position : Vector2f
  deriving DecidableEq, Repr

/-- Keyboard key codes: the four arrow keys and every other key. -/
inductive Key where
  | Up
  | Down
  | Left
  | Right
  | Other (code : Nat)
  deriving DecidableEq, Repr

/-- Window events: a key press, the close button, and every other event type. -/
inductive Event where
  | KeyPressed (code : Key)
  | Closed
  | Other (kind : Nat)
  deriving DecidableEq, Repr

/-- Whole program state: the locals of `main` that the game functions touch, the
window flag, and the number of `rand()` values consumed. -/
structure Game where
  snake : Snake
  food : Food
  score : Int
  windowOpen : Bool
  randCalls : Nat
  deriving DecidableEq, Repr

/-! ## `generateFood` (lines 80-95) -/

/-- The inner `for` loop of `generateFood`: `validPosition` stays `true` unless
some segment equals the candidate position (the loop breaks at the first hit). -/
def validPosition (position : Vector2f) : List Vector2f → Bool
  | [] => true
  | segment :: rest => if position = segment then false else validPosition position rest

/-- The candidate drawn by one pass of the loop body: two consecutive `rand()`
values, `rand() % (WIDTH / BLOCK_SIZE) * BLOCK_SIZE` and
`rand() % (HEIGHT / BLOCK_SIZE) * BLOCK_SIZE`. -/
def drawPosition (rnd : Nat → Nat) (k : Nat) : Vector2f :=
  ⟨(rnd k : Int) % (WIDTH / BLOCK_SIZE) * BLOCK_SIZE,
   (rnd (k + 1) : Int) % (HEIGHT / BLOCK_SIZE) * BLOCK_SIZE⟩

/-- The `do ... while (!validPosition)` loop; `fuel` bounds the number of passes. -/
def generateFood : Nat → (Nat → Nat) → Game → Option Game
  | 0, _, _ => none
  | fuel + 1, rnd, g =>
    let g1 : Game :=
      { g with food := ⟨drawPosition rnd g.randCalls⟩, randCalls := g.randCalls + 2 }
    if validPosition g1.food.position g1.snake.body then some g1
    else generateFood fuel rnd g1

/-! ## `handleInput` (lines 102-113) -/

/-- Four consecutive `if` statements inside the `KeyPressed` test. -/
def handleInput (event : Event) (snake : Snake) : Snake :=
  match event with
  | Event.KeyPressed code =>
    let s1 : Snake :=
      if code = Key.Up ∧ snake.direction.y = 0 then
        { snake with direction := ⟨0, -BLOCK_SIZE⟩ } else snake
    let s2 : Snake :=
      if code = Key.Down ∧ s1.direction.y = 0 then
        { s1 with direction := ⟨0, BLOCK_SIZE⟩ } else s1
    let s3 : Snake :=
      if code = Key.Left ∧ s2.direction.x = 0 then
        { s2 with direction := ⟨-BLOCK_SIZE, 0⟩ } else s2
    if code = Key.Right ∧ s3.direction.x = 0 then
      { s3 with direction := ⟨BLOCK_SIZE, 0⟩ } else s3
  | _ => snake

/-! ## `updateSnake` (lines 122-149) -/

/-- The wall test of lines 137-138 on the head. -/
def hitsWall (head : Vector2f) : Bool :=
  decide (head.x < 0) || decide (head.x ≥ WIDTH) ||
    decide (head.y < 0) || decide (head.y ≥ HEIGHT)

/-- The loop of lines 143-148 over `body[1..]`, threading the window flag: every
segment equal to the head closes the window (the loop has no `break`). -/
def selfScan (head : Vector2f) : List Vector2f → Bool → Bool
  | [], isOpen => isOpen
  | segment :: rest, isOpen => selfScan head rest (if head = segment then false else isOpen)

/-- Lines 136-148: wall check, then the self-collision loop. -/
def checkCollisions (g : Game) : Game :=
  match g.snake.body with
  | [] => g
  | head :: rest =>
    let g1 : Game := if hitsWall head then { g with windowOpen := false } else g
    { g1 with windowOpen := selfScan head rest g1.windowOpen }

/-- Lines 124-125: the new head is inserted in front of the body. -/
def advance (g : Game) (head : Vector2f) : Game :=
  { g with snake := { g.snake with body := (head + g.snake.direction) :: g.snake.body } }

/-- One call of `updateSnake`. -/
def updateSnake (fuel : Nat) (rnd : Nat → Nat) (g : Game) : Option Game :=
  match g.snake.body with
  | [] => none
  | head :: _ =>
    let moved : Game := advance g head
    let fed : Option Game :=
      if head + g.snake.direction = moved.food.position then
        (generateFood fuel rnd moved).map fun g2 => { g2 with score := g2.score + 1 }
      else
        some { moved with snake := { moved.snake with body := moved.snake.body.dropLast } }
    fed.map checkCollisions

/-! ## `main` (lines 30-71) -/

/-- Lines 34-41 before the call of `generateFood`: the snake, a default
constructed food and the score. -/
def startGame : Game :=
  { snake := ⟨[⟨WIDTH / 2, HEIGHT / 2⟩], ⟨BLOCK_SIZE, 0⟩⟩
    food := ⟨⟨0, 0⟩⟩
    score := 0
    windowOpen := true
    randCalls := 0 }

/-- State on entry to the main loop. -/
def initGame (fuel : Nat) (rnd : Nat → Nat) : Option Game :=
  generateFood fuel rnd startGame

/-- One pass of the inner `pollEvent` loop body (lines 56-59). -/
def pollStep (g : Game) (event : Event) : Game :=
  let g1 : Game := if event = Event.Closed then { g with windowOpen := false } else g
  { g1 with snake := handleInput event g1.snake }

/-- The inner `while (window.pollEvent(event))` loop over the events queued for
one frame. -/
def pollEvents (events : List Event) (g : Game) : Game :=
  events.foldl pollStep g

/-- Body of the outer loop: drain the events, then `updateSnake`. -/
def frame (fuel : Nat) (rnd : Nat → Nat) (events : List Event) (g : Game) : Option Game :=
  updateSnake fuel rnd (pollEvents events g)

/-- The outer `while (window.isOpen())` loop, run over the event queues of
finitely many frames. -/
def mainLoop (fuel : Nat) (rnd : Nat → Nat) : List (List Event) → Game → Option Game
  | [], g => some g
  | events :: later, g =>
    if g.windowOpen then
      match frame fuel rnd events g with
      | none => none
      | some g1 => mainLoop fuel rnd later g1
    else some g

/-! ## Sample data -/

/-- Random source returning 0, 1, 2, ... -/
def countUp : Nat → Nat := fun n => n

/-- Random source returning 0 forever. -/
def zeroes : Nat → Nat := fun _ => 0

/-- The start snake with the food one cell to the right of the head. -/
def eatGame : Game := { startGame with food := ⟨⟨420, 300⟩⟩ }

/-- The start snake with the food in the top left corner. -/
def plainGame : Game := { startGame with food := ⟨⟨0, 0⟩⟩ }

/-- Three segments, heading left into the own tail: the move yields the body
`[(100,100),(120,100),(100,100)]`, cells `[(5,5),(6,5),(5,5)]`. -/
def loopGame : Game :=
  { snake := ⟨[⟨120, 100⟩, ⟨100, 100⟩, ⟨100, 120⟩], ⟨-20, 0⟩⟩
    food := ⟨⟨0, 0⟩⟩
    score := 2
    windowOpen := true
    randCalls := 0 }

/-- The state `updateSnake` leaves `loopGame` in: head back on the tail cell,
window closed. -/
def loopGameOver : Game :=
  { loopGame with
    snake := ⟨[⟨100, 100⟩, ⟨120, 100⟩, ⟨100, 100⟩], ⟨-20, 0⟩⟩, windowOpen := false }

/-- Random source whose first two values put the first food on pixel (420,300);
afterwards it counts up. -/
def riggedRand : Nat → Nat := fun n => if n = 0 then 21 else if n = 1 then 15 else n

/-- State on entry to the main loop under `riggedRand`. -/
def firstGame : Game := { startGame with food := ⟨⟨420, 300⟩⟩, randCalls := 2 }

/-- The state `firstGame` after a `Closed` event has been polled. -/
def closedGame : Game := { firstGame with windowOpen := false }

/-- The state `updateSnake` leaves `closedGame` in. -/
def closedGameAfter : Game :=
  { snake := ⟨[⟨420, 300⟩, ⟨400, 300⟩], ⟨20, 0⟩⟩
    food := ⟨⟨40, 60⟩⟩
    score := 1
    windowOpen := false
    randCalls := 4 }

/-- The direction written by the branch of `handleInput` for an arrow key. -/
def arrowDirection : Key → Option Vector2f
  | Key.Up => some ⟨0, -BLOCK_SIZE⟩
  | Key.Down => some ⟨0, BLOCK_SIZE⟩
  | Key.Left => some ⟨-BLOCK_SIZE, 0⟩
  | Key.Right => some ⟨BLOCK_SIZE, 0⟩
  | Key.Other _ => none

/-- The four directions the program ever assigns. -/
def isDirection (d : Vector2f) : Prop :=
  d = ⟨0, -BLOCK_SIZE⟩ ∨ d = ⟨0, BLOCK_SIZE⟩ ∨ d = ⟨-BLOCK_SIZE, 0⟩ ∨ d = ⟨BLOCK_SIZE, 0⟩

instance (d : Vector2f) : Decidable (isDirection d) := by
  unfold isDirection
  infer_instance

/-- The exact opposite of a direction. -/
def opposite (d : Vector2f) : Vector2f := ⟨-d.x, -d.y⟩

/-- Three segments that moved right twice, heading right. -/
def straightGame : Game :=
  { snake := ⟨[⟨380, 300⟩, ⟨360, 300⟩, ⟨340, 300⟩], ⟨20, 0⟩⟩
    food := ⟨⟨0, 0⟩⟩
    score := 2
    windowOpen := true
    randCalls := 6 }

/-- The state `straightGame` after one more tick to the right. -/
def straightGameNext : Game :=
  { straightGame with snake := ⟨[⟨400, 300⟩, ⟨380, 300⟩, ⟨360, 300⟩], ⟨20, 0⟩⟩ }

/-- The state reached from `straightGameNext` when Up and Left are pressed within
one frame and the tick follows. -/
def reversedGameOver : Game :=
  { straightGame with
    snake := ⟨[⟨380, 300⟩, ⟨400, 300⟩, ⟨380, 300⟩], ⟨-20, 0⟩⟩, windowOpen := false }

/-- Pixel origins of the 40 x 30 grid cells. -/
def allCells : List Vector2f :=
  (List.range 40).flatMap fun (cx : Nat) =>
    (List.range 30).map fun (cy : Nat) => (⟨(cx : Int) * 20, (cy : Int) * 20⟩ : Vector2f)

/-- Number of grid cells on which some body segment lies. -/
def occupiedCells (body : List Vector2f) : Nat :=
  (allCells.filter fun c => decide (c ∈ body)).length

/-- Random source that draws the window centre, pixel (400,300), forever. -/
def stuckRand : Nat → Nat := fun n => if n % 2 = 0 then 20 else 15

/-! ## Reachable states and the body invariant -/

/-- States the program can be in: the state on entry to the main loop, then any
sequence of polled events and `updateSnake` calls.  Ticks are allowed from every
state, which covers the frame in which the window has just been closed. -/
inductive Reachable (rnd : Nat → Nat) : Game → Prop
  | start (fuel : Nat) (g : Game) (h : initGame fuel rnd = some g) : Reachable rnd g
  | input (g : Game) (event : Event) (h : Reachable rnd g) : Reachable rnd (pollStep g event)
  | tick (fuel : Nat) (g g2 : Game) (h : Reachable rnd g)
      (ht : updateSnake fuel rnd g = some g2) : Reachable rnd g2

/-- Pixel origin of a grid cell: both coordinates multiples of `BLOCK_SIZE` inside
the window. -/
def isCell (p : Vector2f) : Prop :=
  p.x % BLOCK_SIZE = 0 ∧ 0 ≤ p.x ∧ p.x < WIDTH ∧ p.y % BLOCK_SIZE = 0 ∧ 0 ≤ p.y ∧ p.y < HEIGHT

instance (p : Vector2f) : Decidable (isCell p) := by
  unfold isCell
  infer_instance

/-- Two positions one cell apart along exactly one axis. -/
def adjacent (a b : Vector2f) : Prop :=
  (a.y = b.y ∧ (a.x = b.x + BLOCK_SIZE ∨ a.x + BLOCK_SIZE = b.x)) ∨
    (a.x = b.x ∧ (a.y = b.y + BLOCK_SIZE ∨ a.y + BLOCK_SIZE = b.y))

instance (a b : Vector2f) : Decidable (adjacent a b) := by
  unfold adjacent
  infer_instance

/-- Invariant of the reachable states: the direction is one of the four arrows,
and while the window is open the body is a non-empty chain of distinct adjacent
cells and the food is a cell off the body. -/
def Inv (g : Game) : Prop :=
  isDirection g.snake.direction ∧
    (g.windowOpen = true →
      g.snake.body ≠ [] ∧ g.snake.body.Nodup ∧ (∀ c ∈ g.snake.body, isCell c) ∧
        g.snake.body.Chain' adjacent ∧ isCell g.food.position ∧
        g.food.position ∉ g.snake.body)

/-- State on entry to the main loop under `countUp`. -/
def countUpGame : Game := { startGame with food := ⟨⟨0, 20⟩⟩, randCalls := 2 }

/-- The state `countUpGame` after one tick. -/
def countUpGameNext : Game := { countUpGame with snake := ⟨[⟨420, 300⟩], ⟨20, 0⟩⟩ }

/-- The state `updateSnake` leaves `firstGame` in under `riggedRand`: the food
was eaten. -/
def firstGameNext : Game := { closedGameAfter with windowOpen := true }

/-- A single segment in column 0, row 15, heading left. -/
def edgeGame : Game :=
  { snake := ⟨[⟨0, 300⟩], ⟨-20, 0⟩⟩
    food := ⟨⟨100, 100⟩⟩
    score := 0
    windowOpen := true
    randCalls := 2 }

/-- Four segments on a 2 x 2 block, the head heading down onto the tail cell. -/
def squareGame : Game :=
  { snake := ⟨[⟨0, 0⟩, ⟨20, 0⟩, ⟨20, 20⟩, ⟨0, 20⟩], ⟨0, 20⟩⟩
    food := ⟨⟨100, 100⟩⟩
    score := 3
    windowOpen := true
    randCalls := 8 }

/-! ## Auxiliary facts -/

theorem validPosition_iff (p : Vector2f) (body : List Vector2f) :
    validPosition p body = true ↔ p ∉ body := by
  induction body with
  | nil => simp [validPosition]
  | cons seg rest ih =>
    by_cases h : p = seg
    · simp [validPosition, h]
    · simp [validPosition, h, ih]

theorem selfScan_false_iff (head : Vector2f) (rest : List Vector2f) (isOpen : Bool) :
    selfScan head rest isOpen = false ↔ isOpen = false ∨ head ∈ rest := by
  induction rest generalizing isOpen with
  | nil => simp [selfScan]
  | cons seg rest ih =>
    by_cases h : head = seg
    · subst h
      simp [selfScan, ih]
    · simp [selfScan, h, ih]

theorem hitsWall_iff (head : Vector2f) :
    hitsWall head = true ↔ head.x < 0 ∨ head.x ≥ 800 ∨ head.y < 0 ∨ head.y ≥ 600 := by
  simp [hitsWall, WIDTH, HEIGHT, or_assoc]

theorem drawPosition_cell (rnd : Nat → Nat) (k : Nat) :
    ∃ cx cy : Int, 0 ≤ cx ∧ cx < 40 ∧ 0 ≤ cy ∧ cy < 30 ∧
      drawPosition rnd k = ⟨cx * 20, cy * 20⟩ := by
  refine ⟨(rnd k : Int) % 40, (rnd (k + 1) : Int) % 30, ?_, ?_, ?_, ?_, ?_⟩
  · exact Int.emod_nonneg _ (by norm_num)
  · exact Int.emod_lt_of_pos _ (by norm_num)
  · exact Int.emod_nonneg _ (by norm_num)
  · exact Int.emod_lt_of_pos _ (by norm_num)
  · simp [drawPosition, WIDTH, HEIGHT, BLOCK_SIZE]

/-- What a returning `generateFood` did: it kept everything but the food and the
draw counter, and stopped at the first draw (number `j`) that is off the snake. -/
theorem generateFood_some (fuel : Nat) (rnd : Nat → Nat) (g g2 : Game)
    (h : generateFood fuel rnd g = some g2) :
    g2.snake = g.snake ∧ g2.score = g.score ∧ g2.windowOpen = g.windowOpen ∧
      ∃ j, j < fuel ∧ g2.food.position = drawPosition rnd (g.randCalls + 2 * j) ∧
        g2.randCalls = g.randCalls + 2 * (j + 1) ∧
        g2.food.position ∉ g.snake.body ∧
        ∀ i, i < j → drawPosition rnd (g.randCalls + 2 * i) ∈ g.snake.body := by
  induction fuel generalizing g with
  | zero => simp [generateFood] at h
  | succ n ih =>
    simp only [generateFood] at h
    split at h
    · rename_i hv
      injection h with h
      subst h
      refine ⟨rfl, rfl, rfl, 0, Nat.succ_pos _, rfl, rfl, ?_, ?_⟩
      · exact (validPosition_iff _ _).1 hv
      · intro i hi
        exact absurd hi (Nat.not_lt_zero _)
    · rename_i hv
      obtain ⟨h1, h2, h3, j, hj, h4, h5, h6, h7⟩ := ih _ h
      refine ⟨h1, h2, h3, j + 1, Nat.succ_lt_succ hj, ?_, ?_, h6, ?_⟩
      · rw [h4]
        congr 1
        simp only []
        omega
      · rw [h5]
        simp only []
        omega
      · intro i hi
        cases i with
        | zero =>
          have : ¬ (drawPosition rnd g.randCalls ∉ g.snake.body) := by
            intro hc
            exact hv ((validPosition_iff _ _).2 hc)
          simpa using this
        | succ i =>
          have := h7 i (by omega)
          simp only [] at this
          have e : g.randCalls + 2 + 2 * i = g.randCalls + 2 * (i + 1) := by omega
          rw [e] at this
          exact this

/-- Termination of the loop as soon as some draw is off the snake. -/
theorem generateFood_returns (rnd : Nat → Nat) (g : Game) (j : Nat)
    (h : drawPosition rnd (g.randCalls + 2 * j) ∉ g.snake.body) (fuel : Nat)
    (hfuel : j < fuel) : (generateFood fuel rnd g).isSome = true := by
  induction fuel generalizing g j with
  | zero => exact absurd hfuel (Nat.not_lt_zero _)
  | succ n ih =>
    simp only [generateFood]
    split
    · rfl
    · rename_i hv
      cases j with
      | zero =>
        exact absurd ((validPosition_iff _ _).2 (by simpa using h)) hv
      | succ j =>
        apply ih _ j
        · simp only []
          have e : g.randCalls + 2 + 2 * j = g.randCalls + 2 * (j + 1) := by omega
          rw [e]
          exact h
        · omega

theorem checkCollisions_snake (g : Game) : (checkCollisions g).snake = g.snake := by
  unfold checkCollisions
  split
  · rfl
  · split <;> rfl

theorem checkCollisions_food (g : Game) : (checkCollisions g).food = g.food := by
  unfold checkCollisions
  split
  · rfl
  · split <;> rfl

theorem checkCollisions_score (g : Game) : (checkCollisions g).score = g.score := by
  unfold checkCollisions
  split
  · rfl
  · split <;> rfl

theorem checkCollisions_randCalls (g : Game) :
    (checkCollisions g).randCalls = g.randCalls := by
  unfold checkCollisions
  split
  · rfl
  · split <;> rfl

theorem checkCollisions_closed_iff (g : Game) (head : Vector2f) (rest : List Vector2f)
    (hb : g.snake.body = head :: rest) :
    (checkCollisions g).windowOpen = false ↔
      g.windowOpen = false ∨ hitsWall head = true ∨ head ∈ rest := by
  unfold checkCollisions
  rw [hb]
  simp only [selfScan_false_iff]
  by_cases hw : hitsWall head = true
  · simp [hw]
  · simp [hw]

theorem updateSnake_cons (fuel : Nat) (rnd : Nat → Nat) (g : Game) (head : Vector2f)
    (rest : List Vector2f) (hb : g.snake.body = head :: rest) :
    updateSnake fuel rnd g =
      (if head + g.snake.direction = g.food.position then
        (generateFood fuel rnd (advance g head)).map
          fun g2 => { g2 with score := g2.score + 1 }
      else
        some { advance g head with
          snake := { (advance g head).snake with
            body := (advance g head).snake.body.dropLast } }).map checkCollisions := by
  unfold updateSnake
  rw [hb]
  rfl

/-- Inversion of a returning `updateSnake`: the state before the collision checks
is either the fed one (eat branch) or the shrunk one (else branch). -/
theorem updateSnake_some (fuel : Nat) (rnd : Nat → Nat) (g g2 : Game)
    (h : updateSnake fuel rnd g = some g2) :
    ∃ head rest g1, g.snake.body = head :: rest ∧ g2 = checkCollisions g1 ∧
      g1.windowOpen = g.windowOpen ∧ g1.snake.direction = g.snake.direction ∧
      ((head + g.snake.direction = g.food.position ∧
          g1.snake.body = (head + g.snake.direction) :: head :: rest ∧
          g1.score = g.score + 1 ∧
          (∃ j, g1.food.position = drawPosition rnd (g.randCalls + 2 * j)) ∧
          g1.food.position ∉ (head + g.snake.direction) :: head :: rest) ∨
        (head + g.snake.direction ≠ g.food.position ∧
          g1.snake.body = (head + g.snake.direction) :: (head :: rest).dropLast ∧
          g1.score = g.score ∧ g1.food = g.food ∧ g1.randCalls = g.randCalls)) := by
  cases hb : g.snake.body with
  | nil => simp [updateSnake, hb] at h
  | cons head rest =>
    rw [updateSnake_cons fuel rnd g head rest hb] at h
    by_cases heat : head + g.snake.direction = g.food.position
    · rw [if_pos heat] at h
      cases hgen : generateFood fuel rnd (advance g head) with
      | none => simp [hgen] at h
      | some gf =>
        rw [hgen] at h
        simp only [Option.map_some', Option.some.injEq] at h
        obtain ⟨hs, hsc, hw, j, -, hpos, -, hfree, -⟩ := generateFood_some fuel rnd _ _ hgen
        refine ⟨head, rest, { gf with score := gf.score + 1 }, rfl, h.symm, hw, ?_,
          Or.inl ⟨heat, ?_, ?_, ⟨j, hpos⟩, ?_⟩⟩
        · show gf.snake.direction = _
          rw [hs]
          rfl
        · show gf.snake.body = _
          rw [hs]
          simp [advance, hb]
        · show gf.score + 1 = _
          rw [hsc]
          rfl
        · show gf.food.position ∉ _
          have : (advance g head).snake.body = (head + g.snake.direction) :: head :: rest := by
            simp [advance, hb]
          rw [← this]
          exact hfree
    · rw [if_neg heat] at h
      simp only [Option.map_some', Option.some.injEq] at h
      refine ⟨head, rest, _, rfl, h.symm, rfl, rfl, Or.inr ⟨heat, ?_, rfl, rfl, rfl⟩⟩
      simp [advance, hb]

theorem mem_tail_iff_index (head first : Vector2f) (rest : List Vector2f) :
    head ∈ rest ↔
      ∃ i, 1 ≤ i ∧ i < (first :: rest).length ∧ (first :: rest)[i]? = some head := by
  constructor
  · intro hm
    obtain ⟨n, hn⟩ := List.mem_iff_getElem?.1 hm
    have hlt : n < rest.length := by
      by_contra hc
      rw [List.getElem?_eq_none (by omega)] at hn
      exact Option.noConfusion hn
    exact ⟨n + 1, by omega, by simpa using hlt, by simpa using hn⟩
  · rintro ⟨i, hi, -, hget⟩
    obtain ⟨n, rfl⟩ : ∃ n, i = n + 1 := ⟨i - 1, by omega⟩
    exact List.mem_iff_getElem?.2 ⟨n, by simpa using hget⟩

theorem handleInput_body (event : Event) (snake : Snake) :
    (handleInput event snake).body = snake.body := by
  cases event with
  | KeyPressed code =>
    simp only [handleInput]
    split_ifs <;> rfl
  | Closed => rfl
  | Other kind => rfl

theorem handleInput_direction_indep (event : Event) (body : List Vector2f) (d : Vector2f) :
    (handleInput event ⟨body, d⟩).direction = (handleInput event ⟨[], d⟩).direction := by
  cases event with
  | KeyPressed code =>
    simp only [handleInput]
    split_ifs <;> rfl
  | Closed => rfl
  | Other kind => rfl

theorem generateFood_isSome_iff (rnd : Nat → Nat) (g : Game) :
    (∃ fuel, (generateFood fuel rnd g).isSome = true) ↔
      ∃ j, drawPosition rnd (g.randCalls + 2 * j) ∉ g.snake.body := by
  constructor
  · rintro ⟨fuel, hf⟩
    obtain ⟨g2, hg2⟩ := Option.isSome_iff_exists.1 hf
    obtain ⟨-, -, -, j, -, hpos, -, hfree, -⟩ := generateFood_some fuel rnd g g2 hg2
    exact ⟨j, hpos ▸ hfree⟩
  · rintro ⟨j, hj⟩
    exact ⟨j + 1, generateFood_returns rnd g j hj (j + 1) (Nat.lt_succ_self j)⟩

theorem mem_allCells (c : Vector2f) :
    c ∈ allCells ↔ ∃ cx cy : Nat, cx < 40 ∧ cy < 30 ∧ c = ⟨(cx : Int) * 20, (cy : Int) * 20⟩ := by
  simp only [allCells, List.mem_flatMap, List.mem_map, List.mem_range]
  constructor
  · rintro ⟨cx, hx, cy, hy, rfl⟩
    exact ⟨cx, cy, hx, hy, rfl⟩
  · rintro ⟨cx, cy, hx, hy, rfl⟩
    exact ⟨cx, hx, cy, hy, rfl⟩

theorem allCells_length : allCells.length = 1200 := by
  simp [allCells, List.length_flatMap, Function.comp_def]

theorem exists_free_cell (body : List Vector2f) (h : occupiedCells body < 1200) :
    ∃ c ∈ allCells, c ∉ body := by
  by_contra hc
  push_neg at hc
  have hall : allCells.filter (fun c => decide (c ∈ body)) = allCells :=
    List.filter_eq_self.2 (fun c hm => by simpa using hc c hm)
  unfold occupiedCells at h
  rw [hall, allCells_length] at h
  exact Nat.lt_irrefl _ h

theorem add_x (a b : Vector2f) : (a + b).x = a.x + b.x := rfl

theorem add_y (a b : Vector2f) : (a + b).y = a.y + b.y := rfl

theorem isCell_iff (p : Vector2f) :
    isCell p ↔ ∃ cx cy : Int, 0 ≤ cx ∧ cx < 40 ∧ 0 ≤ cy ∧ cy < 30 ∧ p = ⟨cx * 20, cy * 20⟩ := by
  obtain ⟨x, y⟩ := p
  simp only [isCell, BLOCK_SIZE, WIDTH, HEIGHT, Vector2f.mk.injEq]
  constructor
  · rintro ⟨hx, hx0, hx1, hy, hy0, hy1⟩
    exact ⟨x / 20, y / 20, by omega, by omega, by omega, by omega, by omega, by omega⟩
  · rintro ⟨cx, cy, hx0, hx1, hy0, hy1, rfl, rfl⟩
    exact ⟨by omega, by omega, by omega, by omega, by omega, by omega⟩

theorem isCell_drawPosition (rnd : Nat → Nat) (k : Nat) : isCell (drawPosition rnd k) := by
  rw [isCell_iff]
  exact drawPosition_cell rnd k

theorem isCell_step (head d : Vector2f) (hc : isCell head) (hd : isDirection d)
    (hw : hitsWall (head + d) = false) : isCell (head + d) := by
  have hnw : ¬ (hitsWall (head + d) = true) := by simp [hw]
  rw [hitsWall_iff, add_x, add_y] at hnw
  simp only [isCell, BLOCK_SIZE, WIDTH, HEIGHT, add_x, add_y] at hc ⊢
  obtain ⟨h1, h2, h3, h4, h5, h6⟩ := hc
  rcases hd with rfl | rfl | rfl | rfl <;> simp only [BLOCK_SIZE] at hnw ⊢ <;>
    exact ⟨by omega, by omega, by omega, by omega, by omega, by omega⟩

theorem adjacent_step (head d : Vector2f) (hd : isDirection d) : adjacent (head + d) head := by
  simp only [isDirection, BLOCK_SIZE] at hd
  rcases hd with rfl | rfl | rfl | rfl <;> simp [adjacent, add_x, add_y, BLOCK_SIZE]

theorem head?_dropLast_cons (head : Vector2f) (rest : List Vector2f) :
    ∀ y ∈ ((head :: rest).dropLast).head?, y = head := by
  intro y hy
  cases rest with
  | nil => simp at hy
  | cons r rs =>
    simp only [List.dropLast_cons₂, List.head?_cons, Option.mem_def, Option.some.injEq] at hy
    exact hy.symm

theorem checkCollisions_open (g : Game) (head : Vector2f) (rest : List Vector2f)
    (hb : g.snake.body = head :: rest) (ho : (checkCollisions g).windowOpen = true) :
    g.windowOpen = true ∧ hitsWall head = false ∧ head ∉ rest := by
  have hiff := checkCollisions_closed_iff g head rest hb
  refine ⟨?_, ?_, ?_⟩
  · cases hg : g.windowOpen with
    | true => rfl
    | false =>
      rw [hiff.2 (Or.inl hg)] at ho
      exact Bool.noConfusion ho
  · cases hh : hitsWall head with
    | false => rfl
    | true =>
      rw [hiff.2 (Or.inr (Or.inl hh))] at ho
      exact Bool.noConfusion ho
  · intro hm
    rw [hiff.2 (Or.inr (Or.inr hm))] at ho
    exact Bool.noConfusion ho

theorem inv_start (fuel : Nat) (rnd : Nat → Nat) (g : Game) (h : initGame fuel rnd = some g) :
    Inv g := by
  obtain ⟨hs, -, -, j, -, hpos, -, hfree, -⟩ := generateFood_some fuel rnd startGame g h
  refine ⟨?_, fun _ => ?_⟩
  · rw [hs]
    decide
  · rw [hs]
    refine ⟨by decide, by decide, by decide, List.chain'_singleton _, ?_, hfree⟩
    rw [hpos]
    exact isCell_drawPosition _ _

theorem inv_pollStep (g : Game) (event : Event) (h : Inv g) : Inv (pollStep g event) := by
  obtain ⟨hd, hI⟩ := h
  have hdir : isDirection (handleInput event g.snake).direction := by
    cases event with
    | KeyPressed code =>
      simp only [handleInput]
      split_ifs <;> first | exact hd | (simp only [isDirection]; tauto)
    | Closed => exact hd
    | Other kind => exact hd
  by_cases hc : event = Event.Closed
  · subst hc
    refine ⟨hdir, fun ho => ?_⟩
    simp [pollStep] at ho
  · refine ⟨by simpa [pollStep, hc] using hdir, fun ho => ?_⟩
    have hopen : g.windowOpen = true := by simpa [pollStep, hc] using ho
    have hbody : (pollStep g event).snake.body = g.snake.body := by
      simp [pollStep, hc, handleInput_body]
    have hfood : (pollStep g event).food = g.food := by
      simp [pollStep, hc]
    rw [hbody, hfood]
    exact hI hopen

theorem inv_updateSnake (fuel : Nat) (rnd : Nat → Nat) (g g2 : Game) (h : Inv g)
    (ht : updateSnake fuel rnd g = some g2) : Inv g2 := by
  obtain ⟨hd, hI⟩ := h
  obtain ⟨head, rest, g1, hb, rfl, hw, hdir, hcase⟩ := updateSnake_some fuel rnd g g2 ht
  refine ⟨by rw [checkCollisions_snake, hdir]; exact hd, fun ho => ?_⟩
  rw [checkCollisions_snake, checkCollisions_food]
  rcases hcase with ⟨heat, hbody, -, ⟨j, hpos⟩, hfree⟩ | ⟨hne, hbody, -, hfood, -⟩
  · obtain ⟨ho1, hwall, hself⟩ := checkCollisions_open g1 _ _ hbody ho
    obtain ⟨-, hnd, hcells, hchain, -, -⟩ := hI (hw ▸ ho1)
    rw [hb] at hnd hcells hchain
    have hhead : isCell head := hcells head (List.mem_cons_self _ _)
    rw [hbody]
    refine ⟨List.cons_ne_nil _ _, List.nodup_cons.2 ⟨hself, hnd⟩, ?_, ?_, ?_, hfree⟩
    · intro c hc
      rcases List.mem_cons.1 hc with rfl | hc
      · exact isCell_step head _ hhead hd hwall
      · exact hcells c hc
    · exact List.chain'_cons.2 ⟨adjacent_step head _ hd, hchain⟩
    · rw [hpos]
      exact isCell_drawPosition _ _
  · obtain ⟨ho1, hwall, hself⟩ := checkCollisions_open g1 _ _ hbody ho
    obtain ⟨-, hnd, hcells, hchain, hfc, hfb⟩ := hI (hw ▸ ho1)
    rw [hb] at hnd hcells hchain hfb
    have hhead : isCell head := hcells head (List.mem_cons_self _ _)
    rw [hbody, hfood]
    refine ⟨List.cons_ne_nil _ _, List.nodup_cons.2 ⟨hself, ?_⟩, ?_, ?_, hfc, ?_⟩
    · exact hnd.sublist (List.dropLast_sublist _)
    · intro c hc
      rcases List.mem_cons.1 hc with rfl | hc
      · exact isCell_step head _ hhead hd hwall
      · exact hcells c (List.mem_of_mem_dropLast hc)
    · refine List.chain'_cons'.2 ⟨?_, hchain.prefix (List.dropLast_prefix _)⟩
      intro y hy
      rw [head?_dropLast_cons head rest y hy]
      exact adjacent_step head _ hd
    · intro hm
      rcases List.mem_cons.1 hm with he | hm
      · exact hne he.symm
      · exact hfb (List.mem_of_mem_dropLast hm)

theorem reachable_inv (rnd : Nat → Nat) (g : Game) (h : Reachable rnd g) : Inv g := by
  induction h with
  | start fuel g h => exact inv_start fuel rnd g h
  | input g event _ ih => exact inv_pollStep g event ih
  | tick fuel g g2 _ ht ih => exact inv_updateSnake fuel rnd g g2 ih ht

/-- A tick returns whenever the body is non-empty and, on food, the food
placement returns. -/
theorem updateSnake_returns (fuel : Nat) (rnd : Nat → Nat) (g : Game) (head : Vector2f)
    (rest : List Vector2f) (hb : g.snake.body = head :: rest)
    (hret : head + g.snake.direction = g.food.position →
      (generateFood fuel rnd (advance g head)).isSome = true) :
    ∃ g2, updateSnake fuel rnd g = some g2 := by
  rw [updateSnake_cons fuel rnd g head rest hb]
  by_cases heat : head + g.snake.direction = g.food.position
  · obtain ⟨g1, hg1⟩ := Option.isSome_iff_exists.1 (hret heat)
    rw [if_pos heat, hg1]
    exact ⟨_, rfl⟩
  · rw [if_neg heat]
    exact ⟨_, rfl⟩

theorem checkCollisions_stays_open (g : Game) (head : Vector2f) (rest : List Vector2f)
    (hb : g.snake.body = head :: rest) (ho : g.windowOpen = true)
    (hw : hitsWall head = false) (hs : head ∉ rest) :
    (checkCollisions g).windowOpen = true := by
  cases hc : (checkCollisions g).windowOpen with
  | true => rfl
  | false =>
    rcases (checkCollisions_closed_iff g head rest hb).1 hc with h | h | h
    · rw [ho] at h
      exact Bool.noConfusion h
    · rw [hw] at h
      exact Bool.noConfusion h
    · exact absurd h hs

theorem hitsWall_of_isCell (p : Vector2f) (h : isCell p) : hitsWall p = false := by
  obtain ⟨-, h1, h2, -, h3, h4⟩ := h
  cases hw : hitsWall p with
  | false => rfl
  | true =>
    rw [hitsWall_iff] at hw
    simp only [WIDTH, HEIGHT] at h2 h4
    omega

theorem pollStep_body (g : Game) (event : Event) :
    (pollStep g event).snake.body = g.snake.body := by
  unfold pollStep
  split_ifs <;> simp [handleInput_body]

theorem pollStep_food (g : Game) (event : Event) : (pollStep g event).food = g.food := by
  unfold pollStep
  split_ifs <;> rfl

theorem pollStep_score (g : Game) (event : Event) : (pollStep g event).score = g.score := by
  unfold pollStep
  split_ifs <;> rfl

/-- A tick keeps the food off the body and keeps the score at length minus one,
whatever the window flag. -/
theorem updateSnake_food_score (fuel : Nat) (rnd : Nat → Nat) (g g2 : Game)
    (ht : updateSnake fuel rnd g = some g2)
    (h : g.food.position ∉ g.snake.body ∧ g.score = (g.snake.body.length : Int) - 1) :
    g2.food.position ∉ g2.snake.body ∧ g2.score = (g2.snake.body.length : Int) - 1 := by
  obtain ⟨hoff, hscore⟩ := h
  obtain ⟨head, rest, g1, hb, rfl, -, -, hcase⟩ := updateSnake_some fuel rnd g g2 ht
  rw [checkCollisions_snake, checkCollisions_food, checkCollisions_score]
  rw [hb] at hoff hscore
  rcases hcase with ⟨-, hbody, hsc, -, hfree⟩ | ⟨hne, hbody, hsc, hfood, -⟩
  · rw [hbody]
    refine ⟨hfree, ?_⟩
    rw [hsc, hscore]
    simp only [List.length_cons]
    push_cast
    ring
  · rw [hbody, hfood]
    constructor
    · intro hm
      rcases List.mem_cons.1 hm with he | hm
      · exact hne he.symm
      · exact hoff (List.mem_of_mem_dropLast hm)
    · rw [hsc, hscore]
      simp only [List.length_cons, List.length_dropLast_cons]

theorem reachable_food_score (rnd : Nat → Nat) (g : Game) (h : Reachable rnd g) :
    g.food.position ∉ g.snake.body ∧ g.score = (g.snake.body.length : Int) - 1 := by
  induction h with
  | start fuel g h =>
    obtain ⟨hs, hsc, -, j, -, -, -, hfree, -⟩ := generateFood_some fuel rnd startGame g h
    rw [hs, hsc]
    exact ⟨hfree, by decide⟩
  | input g event _ ih =>
    rw [pollStep_body, pollStep_food, pollStep_score]
    exact ih
  | tick fuel g g2 _ ht ih => exact updateSnake_food_score fuel rnd g g2 ht ih

theorem not_mem_dropLast_of_getLast? (body : List Vector2f) (p : Vector2f)
    (hnd : body.Nodup) (hlast : body.getLast? = some p) : p ∉ body.dropLast := by
  have happ : body.dropLast ++ [p] = body := List.dropLast_append_getLast? p hlast
  rw [← happ] at hnd
  intro hm
  exact (List.nodup_append.1 hnd).2.2 hm (List.mem_singleton_self p)

/-! ## Claims -/

/-- C1: for a state with non-empty body whose head after the advance equals the
food position, and a random source for which food placement returns, one
`updateSnake` call returns, the body is exactly one longer, the score exactly
one higher, and the new food differs from every cell of the new body. -/
theorem updateSnake_eat (fuel : Nat) (rnd : Nat → Nat) (g : Game) (head : Vector2f)
    (rest : List Vector2f) (hb : g.snake.body = head :: rest)
    (heat : head + g.snake.direction = g.food.position)
    (hret : (generateFood fuel rnd (advance g head)).isSome = true) :
    ∃ g2, updateSnake fuel rnd g = some g2 ∧
      g2.snake.body.length = g.snake.body.length + 1 ∧
      g2.score = g.score + 1 ∧
      ∀ seg ∈ g2.snake.body, g2.food.position ≠ seg := by
  obtain ⟨g1, hg1⟩ := Option.isSome_iff_exists.1 hret
  obtain ⟨hs, hsc, -, j, -, -, -, hfree, -⟩ := generateFood_some fuel rnd _ _ hg1
  refine ⟨checkCollisions { g1 with score := g1.score + 1 }, ?_, ?_, ?_, ?_⟩
  · rw [updateSnake_cons fuel rnd g head rest hb, if_pos heat, hg1]
    rfl
  · rw [checkCollisions_snake]
    show g1.snake.body.length = _
    rw [hs]
    simp [advance]
  · rw [checkCollisions_score]
    show g1.score + 1 = _
    rw [hsc]
    rfl
  · intro seg hseg hEq
    rw [checkCollisions_snake] at hseg
    rw [checkCollisions_food] at hEq
    change seg ∈ g1.snake.body at hseg
    change g1.food.position = seg at hEq
    rw [hs] at hseg
    exact hfree (hEq ▸ hseg)

theorem updateSnake_eat_witness :
    ∃ g2, updateSnake 1 countUp eatGame = some g2 ∧
      g2.snake.body.length = eatGame.snake.body.length + 1 ∧
      g2.score = eatGame.score + 1 ∧
      ∀ seg ∈ g2.snake.body, g2.food.position ≠ seg :=
  updateSnake_eat 1 countUp eatGame ⟨400, 300⟩ [] (by rfl) (by decide) (by decide)

/-- C2: for a state with non-empty body whose head after the advance differs from
the food position, one `updateSnake` call returns (whatever the random source)
and the body length is unchanged. -/
theorem updateSnake_no_eat (fuel : Nat) (rnd : Nat → Nat) (g : Game) (head : Vector2f)
    (rest : List Vector2f) (hb : g.snake.body = head :: rest)
    (hne : head + g.snake.direction ≠ g.food.position) :
    ∃ g2, updateSnake fuel rnd g = some g2 ∧
      g2.snake.body.length = g.snake.body.length := by
  rw [updateSnake_cons fuel rnd g head rest hb, if_neg hne]
  refine ⟨_, rfl, ?_⟩
  rw [checkCollisions_snake]
  simp [advance, hb]

theorem updateSnake_no_eat_witness :
    ∃ g2, updateSnake 0 zeroes plainGame = some g2 ∧
      g2.snake.body.length = plainGame.snake.body.length :=
  updateSnake_no_eat 0 zeroes plainGame ⟨400, 300⟩ [] (by rfl) (by decide)

/-- C3: a returning `updateSnake` call on an open window closes it (status Over)
exactly when, for the body after the move and the eat-or-shrink step, the head
`body[0]` is outside the pixel rectangle (x < 0, x >= 800, y < 0 or y >= 600) or
equals `body[i]` for some `i` in `[1, body.length)`. -/
theorem updateSnake_over_iff (fuel : Nat) (rnd : Nat → Nat) (g g2 : Game)
    (hopen : g.windowOpen = true) (h : updateSnake fuel rnd g = some g2) :
    ∃ head rest, g2.snake.body = head :: rest ∧
      (g2.windowOpen = false ↔
        (head.x < 0 ∨ head.x ≥ 800 ∨ head.y < 0 ∨ head.y ≥ 600) ∨
          ∃ i, 1 ≤ i ∧ i < g2.snake.body.length ∧ g2.snake.body[i]? = some head) := by
  obtain ⟨head, rest, g1, hb, rfl, hw, -, hcase⟩ := updateSnake_some fuel rnd g g2 h
  have key : ∀ tl, g1.snake.body = (head + g.snake.direction) :: tl →
      ∃ hd rs, (checkCollisions g1).snake.body = hd :: rs ∧
        ((checkCollisions g1).windowOpen = false ↔
          (hd.x < 0 ∨ hd.x ≥ 800 ∨ hd.y < 0 ∨ hd.y ≥ 600) ∨
            ∃ i, 1 ≤ i ∧ i < (checkCollisions g1).snake.body.length ∧
              (checkCollisions g1).snake.body[i]? = some hd) := by
    intro tl htl
    refine ⟨head + g.snake.direction, tl, by rw [checkCollisions_snake, htl], ?_⟩
    rw [checkCollisions_closed_iff g1 _ tl htl, checkCollisions_snake, htl, hw, hopen,
      hitsWall_iff, ← mem_tail_iff_index]
    simp
  rcases hcase with ⟨-, hbody, -⟩ | ⟨-, hbody, -⟩
  · exact key _ hbody
  · exact key _ hbody

theorem updateSnake_over_iff_witness :
    updateSnake 0 zeroes loopGame = some loopGameOver ∧
      ∃ head rest, loopGameOver.snake.body = head :: rest ∧
        (loopGameOver.windowOpen = false ↔
          (head.x < 0 ∨ head.x ≥ 800 ∨ head.y < 0 ∨ head.y ≥ 600) ∨
            ∃ i, 1 ≤ i ∧ i < loopGameOver.snake.body.length ∧
              loopGameOver.snake.body[i]? = some head) :=
  ⟨by decide, updateSnake_over_iff 0 zeroes loopGame loopGameOver (by decide) (by decide)⟩

/-- C4 (as stated, refuted): `updateSnake` does not look at the status.  In the
run under `riggedRand` a `Closed` event closes the window during polling, and the
`updateSnake` call of the same frame still moves the snake, replaces the food
and raises the score. -/
theorem updateSnake_ignores_status :
    initGame 1 riggedRand = some firstGame ∧
      pollEvents [Event.Closed] firstGame = closedGame ∧
      closedGame.windowOpen = false ∧
      updateSnake 1 riggedRand closedGame = some closedGameAfter ∧
      closedGameAfter.snake ≠ closedGame.snake ∧
      closedGameAfter.food ≠ closedGame.food ∧
      closedGameAfter.score ≠ closedGame.score := by
  decide

/-- C4 (amended): once the window is closed on entry to the main loop, the loop
runs no further frame: whatever events and frames follow, the whole state, in
particular snake, food and score, stays as it is. -/
theorem mainLoop_over (fuel : Nat) (rnd : Nat → Nat) (frames : List (List Event))
    (g : Game) (hover : g.windowOpen = false) :
    ∃ g2, mainLoop fuel rnd frames g = some g2 ∧
      g2.snake = g.snake ∧ g2.food = g.food ∧ g2.score = g.score := by
  refine ⟨g, ?_, rfl, rfl, rfl⟩
  cases frames with
  | nil => rfl
  | cons events later => simp [mainLoop, hover]

theorem mainLoop_over_witness :
    ∃ g2, mainLoop 1 riggedRand [[Event.KeyPressed Key.Up], [Event.Closed]] closedGameAfter
        = some g2 ∧
      g2.snake = closedGameAfter.snake ∧ g2.food = closedGameAfter.food ∧
      g2.score = closedGameAfter.score :=
  mainLoop_over 1 riggedRand [[Event.KeyPressed Key.Up], [Event.Closed]] closedGameAfter
    (by decide)

/-- C5: with current direction `d` one of Up, Down, Left, Right and an arrow key
requesting `r`, one `handleInput` call sets the direction to `r` when `r` is
neither `d` nor the opposite of `d` and leaves it at `d` otherwise; the new
direction is never the opposite of `d`. -/
theorem handleInput_direction (snake : Snake) (code : Key) (r : Vector2f)
    (hd : isDirection snake.direction) (hr : arrowDirection code = some r) :
    (handleInput (Event.KeyPressed code) snake).direction =
        (if r ≠ snake.direction ∧ r ≠ opposite snake.direction then r
          else snake.direction) ∧
      (handleInput (Event.KeyPressed code) snake).direction ≠ opposite snake.direction := by
  obtain ⟨body, d⟩ := snake
  simp only at hd
  rw [handleInput_direction_indep]
  rcases hd with rfl | rfl | rfl | rfl <;> cases code <;>
    simp only [arrowDirection, Option.some.injEq] at hr <;> first
      | exact Option.noConfusion hr
      | (subst hr; dsimp only; decide)

theorem handleInput_direction_witness :
    (handleInput (Event.KeyPressed Key.Up) startGame.snake).direction =
        (if (⟨0, -20⟩ : Vector2f) ≠ startGame.snake.direction ∧
            (⟨0, -20⟩ : Vector2f) ≠ opposite startGame.snake.direction then ⟨0, -20⟩
          else startGame.snake.direction) ∧
      (handleInput (Event.KeyPressed Key.Up) startGame.snake).direction
        ≠ opposite startGame.snake.direction :=
  handleInput_direction startGame.snake Key.Up ⟨0, -20⟩ (by decide) (by decide)

/-- C6 (evaluation at the failing input): the snake of length 3 has just moved
right; Up and Left pressed within one frame are both accepted, the direction in
effect at the next tick is Left, the exact opposite, and that tick runs the head
into the second segment and closes the window. -/
theorem handleInput_reversal_in_one_frame :
    updateSnake 0 zeroes straightGame = some straightGameNext ∧
      (pollEvents [Event.KeyPressed Key.Up, Event.KeyPressed Key.Left]
          straightGameNext).snake.direction = opposite straightGameNext.snake.direction ∧
      frame 0 zeroes [Event.KeyPressed Key.Up, Event.KeyPressed Key.Left] straightGameNext
        = some reversedGameOver ∧
      reversedGameOver.windowOpen = false := by
  decide

/-- C7: whenever `generateFood` returns, the food position is the pixel origin
of a grid cell (cell coordinates in [0,40) x [0,30), so x is a multiple of 20 in
[0,800) and y a multiple of 20 in [0,600)), it differs from every cell of
`snake.body`, and the snake is unchanged. -/
theorem generateFood_cell (fuel : Nat) (rnd : Nat → Nat) (g g2 : Game)
    (h : generateFood fuel rnd g = some g2) :
    (∃ cx cy : Int, 0 ≤ cx ∧ cx < 40 ∧ 0 ≤ cy ∧ cy < 30 ∧
        g2.food.position = ⟨cx * 20, cy * 20⟩) ∧
      (g2.food.position.x % 20 = 0 ∧ 0 ≤ g2.food.position.x ∧ g2.food.position.x < 800) ∧
      (g2.food.position.y % 20 = 0 ∧ 0 ≤ g2.food.position.y ∧ g2.food.position.y < 600) ∧
      (∀ seg ∈ g.snake.body, g2.food.position ≠ seg) ∧
      g2.snake = g.snake := by
  obtain ⟨hs, -, -, j, -, hpos, -, hfree, -⟩ := generateFood_some fuel rnd g g2 h
  obtain ⟨cx, cy, hx0, hx1, hy0, hy1, hc⟩ := drawPosition_cell rnd (g.randCalls + 2 * j)
  rw [← hpos] at hc
  refine ⟨⟨cx, cy, hx0, hx1, hy0, hy1, hc⟩, ?_, ?_, ?_, hs⟩
  · rw [hc]
    refine ⟨?_, ?_, ?_⟩ <;> dsimp only <;> omega
  · rw [hc]
    refine ⟨?_, ?_, ?_⟩ <;> dsimp only <;> omega
  · intro seg hseg hEq
    exact hfree (hEq ▸ hseg)

theorem generateFood_cell_witness :
    (∃ cx cy : Int, 0 ≤ cx ∧ cx < 40 ∧ 0 ≤ cy ∧ cy < 30 ∧
        firstGame.food.position = ⟨cx * 20, cy * 20⟩) ∧
      (firstGame.food.position.x % 20 = 0 ∧ 0 ≤ firstGame.food.position.x ∧
        firstGame.food.position.x < 800) ∧
      (firstGame.food.position.y % 20 = 0 ∧ 0 ≤ firstGame.food.position.y ∧
        firstGame.food.position.y < 600) ∧
      (∀ seg ∈ startGame.snake.body, firstGame.food.position ≠ seg) ∧
      firstGame.snake = startGame.snake :=
  generateFood_cell 1 riggedRand startGame firstGame (by decide)

set_option maxRecDepth 100000 in
/-- C8 (as stated, refuted): the start snake occupies one cell of 1200, yet under
a random source that keeps drawing the centre cell the first `generateFood` call
of `main` returns for no number of loop passes. -/
theorem generateFood_may_loop :
    occupiedCells startGame.snake.body < 1200 ∧
      ¬ ∃ fuel, (initGame fuel stuckRand).isSome = true := by
  constructor
  · decide
  · unfold initGame
    rw [generateFood_isSome_iff]
    rintro ⟨j, hj⟩
    apply hj
    have h0 : (2 * j) % 2 = 0 := by omega
    have h1 : ¬ ((2 * j + 1) % 2 = 0) := by omega
    simp [drawPosition, stuckRand, startGame, h0, h1, WIDTH, HEIGHT, BLOCK_SIZE]

/-- C8 (amended): for a snake occupying fewer than 1200 grid cells a free cell
exists and some random source makes `generateFood` return at the first draw;
for an arbitrary random source `generateFood` returns exactly when the source
eventually draws a position off the snake. -/
theorem generateFood_terminates_iff (rnd : Nat → Nat) (g : Game)
    (h : occupiedCells g.snake.body < 1200) :
    (∃ c ∈ allCells, c ∉ g.snake.body) ∧
      (∃ rnd2, (generateFood 1 rnd2 g).isSome = true) ∧
      ((∃ fuel, (generateFood fuel rnd g).isSome = true) ↔
        ∃ j, drawPosition rnd (g.randCalls + 2 * j) ∉ g.snake.body) := by
  obtain ⟨c, hc, hfree⟩ := exists_free_cell g.snake.body h
  refine ⟨⟨c, hc, hfree⟩, ?_, generateFood_isSome_iff rnd g⟩
  obtain ⟨cx, cy, hx, hy, rfl⟩ := (mem_allCells c).1 hc
  refine ⟨fun n => if n = g.randCalls then cx else cy, ?_⟩
  apply generateFood_returns _ g 0 _ 1 Nat.zero_lt_one
  have hd : drawPosition (fun n => if n = g.randCalls then cx else cy) (g.randCalls + 2 * 0)
      = ⟨(cx : Int) * 20, (cy : Int) * 20⟩ := by
    simp only [drawPosition, Nat.mul_zero, Nat.add_zero, if_true, WIDTH, HEIGHT, BLOCK_SIZE]
    have e : ¬ (g.randCalls + 1 = g.randCalls) := by omega
    rw [if_neg e]
    congr 1
    · norm_num
      omega
    · norm_num
      omega
  rw [hd]
  exact hfree

set_option maxRecDepth 100000 in
theorem generateFood_terminates_iff_witness :
    (∃ c ∈ allCells, c ∉ startGame.snake.body) ∧
      (∃ rnd2, (generateFood 1 rnd2 startGame).isSome = true) ∧
      ((∃ fuel, (generateFood fuel countUp startGame).isSome = true) ↔
        ∃ j, drawPosition countUp (startGame.randCalls + 2 * j) ∉ startGame.snake.body) :=
  generateFood_terminates_iff countUp startGame (by decide)

/-- C9: in every state reached from the initial state by ticks and polled events
whose window is still open (Running), the body is non-empty, its cells are
pairwise distinct, every cell has cell coordinates in [0,40) x [0,30), and
consecutive cells are one cell apart along exactly one axis. -/
theorem reachable_running_body (rnd : Nat → Nat) (g : Game) (hr : Reachable rnd g)
    (hopen : g.windowOpen = true) :
    g.snake.body ≠ [] ∧ g.snake.body.Nodup ∧
      (∀ c ∈ g.snake.body, ∃ cx cy : Int, 0 ≤ cx ∧ cx < 40 ∧ 0 ≤ cy ∧ cy < 30 ∧
        c = ⟨cx * 20, cy * 20⟩) ∧
      g.snake.body.Chain' adjacent := by
  obtain ⟨-, hI⟩ := reachable_inv rnd g hr
  obtain ⟨hne, hnd, hcells, hchain, -, -⟩ := hI hopen
  exact ⟨hne, hnd, fun c hc => (isCell_iff c).1 (hcells c hc), hchain⟩

theorem reachable_running_body_witness :
    countUpGameNext.snake.body ≠ [] ∧ countUpGameNext.snake.body.Nodup ∧
      (∀ c ∈ countUpGameNext.snake.body, ∃ cx cy : Int, 0 ≤ cx ∧ cx < 40 ∧ 0 ≤ cy ∧ cy < 30 ∧
        c = ⟨cx * 20, cy * 20⟩) ∧
      countUpGameNext.snake.body.Chain' adjacent :=
  reachable_running_body countUp countUpGameNext
    (Reachable.tick 0 countUpGame countUpGameNext
      (Reachable.start 1 countUpGame (by decide)) (by decide))
    (by decide)

/-- C10: for a random source that ever draws a position other than the centre, the
initial state exists; and every initial state has a snake of length 1 on pixel
(400,300), cell (20,15), direction (20,0) (Right, one cell), score 0, an open
window, and a food cell inside the grid different from the snake cell. -/
theorem initGame_spec (rnd : Nat → Nat)
    (hdraw : ∃ j, drawPosition rnd (2 * j) ≠ ⟨400, 300⟩) :
    (∃ fuel g, initGame fuel rnd = some g) ∧
      ∀ fuel g, initGame fuel rnd = some g →
        g.snake.body = [⟨400, 300⟩] ∧ g.snake.body.length = 1 ∧
        (⟨400, 300⟩ : Vector2f) = ⟨20 * BLOCK_SIZE, 15 * BLOCK_SIZE⟩ ∧
        (⟨400, 300⟩ : Vector2f) = ⟨WIDTH / 2, HEIGHT / 2⟩ ∧
        g.snake.direction = ⟨20, 0⟩ ∧ g.score = 0 ∧ g.windowOpen = true ∧
        (∃ cx cy : Int, 0 ≤ cx ∧ cx < 40 ∧ 0 ≤ cy ∧ cy < 30 ∧
          g.food.position = ⟨cx * 20, cy * 20⟩) ∧
        g.food.position ≠ ⟨400, 300⟩ := by
  constructor
  · obtain ⟨j, hj⟩ := hdraw
    have hsome : (generateFood (j + 1) rnd startGame).isSome = true := by
      apply generateFood_returns rnd startGame j _ (j + 1) (Nat.lt_succ_self j)
      have e : startGame.randCalls + 2 * j = 2 * j := by simp [startGame]
      rw [e]
      simpa [startGame, WIDTH, HEIGHT] using hj
    obtain ⟨g, hg⟩ := Option.isSome_iff_exists.1 hsome
    exact ⟨j + 1, g, hg⟩
  · intro fuel g hg
    obtain ⟨hs, hsc, hw, j, -, hpos, -, hfree, -⟩ := generateFood_some fuel rnd startGame g hg
    refine ⟨by rw [hs]; decide, by rw [hs]; decide, by decide, by decide, by rw [hs]; decide,
      by rw [hsc]; rfl, by rw [hw]; rfl, ?_, ?_⟩
    · rw [hpos]
      exact drawPosition_cell _ _
    · intro he
      apply hfree
      rw [he]
      decide

theorem initGame_spec_witness :
    (∃ fuel g, initGame fuel countUp = some g) ∧
      ∀ fuel g, initGame fuel countUp = some g →
        g.snake.body = [⟨400, 300⟩] ∧ g.snake.body.length = 1 ∧
        (⟨400, 300⟩ : Vector2f) = ⟨20 * BLOCK_SIZE, 15 * BLOCK_SIZE⟩ ∧
        (⟨400, 300⟩ : Vector2f) = ⟨WIDTH / 2, HEIGHT / 2⟩ ∧
        g.snake.direction = ⟨20, 0⟩ ∧ g.score = 0 ∧ g.windowOpen = true ∧
        (∃ cx cy : Int, 0 ≤ cx ∧ cx < 40 ∧ 0 ≤ cy ∧ cy < 30 ∧
          g.food.position = ⟨cx * 20, cy * 20⟩) ∧
        g.food.position ≠ ⟨400, 300⟩ :=
  initGame_spec countUp ⟨0, by decide⟩

/-- C11: from a length-1 snake on pixel (400,300), cell (20,15), heading right
with score 0, an open window and the food on pixel (420,300), cell (21,15), and a
random source for which food placement returns, one tick returns with body
`[(420,300),(400,300)]` (head on cell (21,15), length 2), score 1, the new food
on neither of the two cells, and the window still open. -/
theorem updateSnake_first_eat (fuel : Nat) (rnd : Nat → Nat) (g : Game)
    (hsnake : g.snake = ⟨[⟨400, 300⟩], ⟨20, 0⟩⟩) (hfood : g.food.position = ⟨420, 300⟩)
    (hscore : g.score = 0) (hopen : g.windowOpen = true)
    (hret : (generateFood fuel rnd (advance g ⟨400, 300⟩)).isSome = true) :
    ∃ g2, updateSnake fuel rnd g = some g2 ∧
      g2.snake.body = [⟨21 * BLOCK_SIZE, 15 * BLOCK_SIZE⟩, ⟨20 * BLOCK_SIZE, 15 * BLOCK_SIZE⟩] ∧
      g2.snake.body.length = 2 ∧ g2.score = 1 ∧
      g2.food.position ≠ ⟨20 * BLOCK_SIZE, 15 * BLOCK_SIZE⟩ ∧
      g2.food.position ≠ ⟨21 * BLOCK_SIZE, 15 * BLOCK_SIZE⟩ ∧
      g2.windowOpen = true := by
  have hb : g.snake.body = ⟨400, 300⟩ :: [] := by rw [hsnake]
  have hd : g.snake.direction = ⟨20, 0⟩ := by rw [hsnake]
  have hnew : (⟨400, 300⟩ : Vector2f) + g.snake.direction = ⟨420, 300⟩ := by
    rw [hd]
    decide
  obtain ⟨g2, hg2⟩ := updateSnake_returns fuel rnd g _ _ hb (fun _ => hret)
  obtain ⟨head, rest, g1, hb2, rfl, hw, -, hcase⟩ := updateSnake_some fuel rnd g g2 hg2
  rw [hb] at hb2
  obtain ⟨rfl, rfl⟩ := List.cons.inj hb2
  rw [hnew] at hcase
  rcases hcase with ⟨-, hbody, hsc, -, hfree⟩ | ⟨hne, -⟩
  · refine ⟨_, hg2, ?_, ?_, ?_, ?_, ?_, ?_⟩
    · rw [checkCollisions_snake, hbody]
      decide
    · rw [checkCollisions_snake, hbody]
      rfl
    · rw [checkCollisions_score, hsc, hscore]
      rfl
    · rw [checkCollisions_food]
      intro he
      apply hfree
      rw [he]
      decide
    · rw [checkCollisions_food]
      intro he
      apply hfree
      rw [he]
      decide
    · exact checkCollisions_stays_open g1 _ _ hbody (hw.trans hopen) (by decide) (by decide)
  · exact absurd hfood.symm hne

theorem updateSnake_first_eat_witness :
    ∃ g2, updateSnake 1 riggedRand firstGame = some g2 ∧
      g2.snake.body = [⟨21 * BLOCK_SIZE, 15 * BLOCK_SIZE⟩, ⟨20 * BLOCK_SIZE, 15 * BLOCK_SIZE⟩] ∧
      g2.snake.body.length = 2 ∧ g2.score = 1 ∧
      g2.food.position ≠ ⟨20 * BLOCK_SIZE, 15 * BLOCK_SIZE⟩ ∧
      g2.food.position ≠ ⟨21 * BLOCK_SIZE, 15 * BLOCK_SIZE⟩ ∧
      g2.windowOpen = true :=
  updateSnake_first_eat 1 riggedRand firstGame (by decide) (by decide) (by decide) (by decide)
    (by decide)

/-- C12: for a state whose head is in column 0, heading left, with the food inside
the window, one tick returns (for every random source), the new head has pixel
x = -20 (cell x = -1), the wall test on it is true, the window is closed (Over)
and the score is unchanged. -/
theorem updateSnake_left_wall (fuel : Nat) (rnd : Nat → Nat) (g : Game) (head : Vector2f)
    (rest : List Vector2f) (hb : g.snake.body = head :: rest) (hcol : head.x = 0)
    (hdir : g.snake.direction = ⟨-BLOCK_SIZE, 0⟩)
    (hfood : 0 ≤ g.food.position.x ∧ g.food.position.x < WIDTH ∧
      0 ≤ g.food.position.y ∧ g.food.position.y < HEIGHT) :
    ∃ g2 rest2, updateSnake fuel rnd g = some g2 ∧
      g2.snake.body = ⟨-1 * BLOCK_SIZE, head.y⟩ :: rest2 ∧
      hitsWall ⟨-1 * BLOCK_SIZE, head.y⟩ = true ∧
      g2.windowOpen = false ∧ g2.score = g.score := by
  have hnew : head + g.snake.direction = ⟨-1 * BLOCK_SIZE, head.y⟩ := by
    rw [hdir]
    show (⟨head.x + -BLOCK_SIZE, head.y + 0⟩ : Vector2f) = _
    rw [hcol]
    simp [BLOCK_SIZE]
  have hne : head + g.snake.direction ≠ g.food.position := by
    intro he
    have hx : (head + g.snake.direction).x = g.food.position.x := by rw [he]
    rw [hnew] at hx
    simp only [BLOCK_SIZE] at hx
    omega
  have hwall : hitsWall ⟨-1 * BLOCK_SIZE, head.y⟩ = true := by
    simp [hitsWall, BLOCK_SIZE]
  obtain ⟨g2, hg2⟩ := updateSnake_returns fuel rnd g head rest hb (fun h => absurd h hne)
  obtain ⟨head2, rest2, g1, hb2, rfl, -, -, hcase⟩ := updateSnake_some fuel rnd g g2 hg2
  rw [hb] at hb2
  obtain ⟨rfl, rfl⟩ := List.cons.inj hb2
  rcases hcase with ⟨heat, -⟩ | ⟨-, hbody, hsc, -, -⟩
  · exact absurd heat hne
  · rw [hnew] at hbody
    refine ⟨_, (head :: rest).dropLast, hg2, ?_, hwall, ?_, ?_⟩
    · rw [checkCollisions_snake, hbody]
    · exact (checkCollisions_closed_iff g1 _ _ hbody).2 (Or.inr (Or.inl hwall))
    · rw [checkCollisions_score, hsc]

theorem updateSnake_left_wall_witness :
    ∃ g2 rest2, updateSnake 0 zeroes edgeGame = some g2 ∧
      g2.snake.body = ⟨-1 * BLOCK_SIZE, (⟨0, 300⟩ : Vector2f).y⟩ :: rest2 ∧
      hitsWall ⟨-1 * BLOCK_SIZE, (⟨0, 300⟩ : Vector2f).y⟩ = true ∧
      g2.windowOpen = false ∧ g2.score = edgeGame.score :=
  updateSnake_left_wall 0 zeroes edgeGame ⟨0, 300⟩ [] (by decide) (by decide) (by decide)
    (by decide)

/-- C13: for a body of length exactly 1 the index range `[1, body.length)` is
empty, the scan of lines 143-148 leaves the window flag as it is, and the
collision checks close the window only through the wall test. -/
theorem selfScan_single (g : Game) (hlen : g.snake.body.length = 1) :
    ∃ head, g.snake.body = [head] ∧
      (¬ ∃ i, 1 ≤ i ∧ i < g.snake.body.length) ∧
      (∀ isOpen, selfScan head g.snake.body.tail isOpen = isOpen) ∧
      ((checkCollisions g).windowOpen = false ↔
        g.windowOpen = false ∨ hitsWall head = true) := by
  obtain ⟨head, hb⟩ := List.length_eq_one.1 hlen
  refine ⟨head, hb, ?_, ?_, ?_⟩
  · rintro ⟨i, h1, h2⟩
    omega
  · intro isOpen
    rw [hb]
    rfl
  · rw [checkCollisions_closed_iff g head [] hb]
    simp

theorem selfScan_single_witness :
    ∃ head, startGame.snake.body = [head] ∧
      (¬ ∃ i, 1 ≤ i ∧ i < startGame.snake.body.length) ∧
      (∀ isOpen, selfScan head startGame.snake.body.tail isOpen = isOpen) ∧
      ((checkCollisions startGame).windowOpen = false ↔
        startGame.windowOpen = false ∨ hitsWall head = true) :=
  selfScan_single startGame (by decide)

/-- C14: `handleInput` never changes the body, and for an event that is not a
key press of one of the four arrow keys (another key, or an event of another
type) it leaves the direction unchanged as well. -/
theorem handleInput_frame (event : Event) (snake : Snake)
    (hother : ∀ code, event = Event.KeyPressed code → arrowDirection code = none) :
    (handleInput event snake).direction = snake.direction ∧
      ∀ event2 : Event, (handleInput event2 snake).body = snake.body := by
  refine ⟨?_, fun event2 => handleInput_body event2 snake⟩
  cases event with
  | KeyPressed code =>
    have hnone := hother code rfl
    cases code with
    | Up => exact Option.noConfusion hnone
    | Down => exact Option.noConfusion hnone
    | Left => exact Option.noConfusion hnone
    | Right => exact Option.noConfusion hnone
    | Other n => simp [handleInput]
  | Closed => rfl
  | Other kind => rfl

theorem handleInput_frame_witness :
    (handleInput (Event.KeyPressed (Key.Other 57)) squareGame.snake).direction
        = squareGame.snake.direction ∧
      ∀ event2 : Event, (handleInput event2 squareGame.snake).body = squareGame.snake.body :=
  handleInput_frame (Event.KeyPressed (Key.Other 57)) squareGame.snake
    (fun code h => by
      injection h with h
      subst h
      rfl)

/-- C15: a returning tick leaves the score equal or raises it by exactly one
(never lowers it), and on a tick whose head after the advance differs from the
food position both the score and the food are unchanged. -/
theorem updateSnake_score_food (fuel : Nat) (rnd : Nat → Nat) (g g2 : Game)
    (h : updateSnake fuel rnd g = some g2) :
    (g2.score = g.score ∨ g2.score = g.score + 1) ∧ g.score ≤ g2.score ∧
      ∀ head rest, g.snake.body = head :: rest →
        head + g.snake.direction ≠ g.food.position →
        g2.score = g.score ∧ g2.food = g.food := by
  obtain ⟨head, rest, g1, hb, rfl, -, -, hcase⟩ := updateSnake_some fuel rnd g g2 h
  rw [checkCollisions_score, checkCollisions_food]
  rcases hcase with ⟨heat, -, hsc, -, -⟩ | ⟨hne, -, hsc, hfood, -⟩
  · refine ⟨Or.inr hsc, by omega, ?_⟩
    intro head2 rest2 hb2 hne2
    rw [hb] at hb2
    obtain ⟨rfl, rfl⟩ := List.cons.inj hb2
    exact absurd heat hne2
  · exact ⟨Or.inl hsc, by omega, fun _ _ _ _ => ⟨hsc, hfood⟩⟩

theorem updateSnake_score_food_witness :
    (firstGameNext.score = firstGame.score ∨ firstGameNext.score = firstGame.score + 1) ∧
      firstGame.score ≤ firstGameNext.score ∧
      ∀ head rest, firstGame.snake.body = head :: rest →
        head + firstGame.snake.direction ≠ firstGame.food.position →
        firstGameNext.score = firstGame.score ∧ firstGameNext.food = firstGame.food :=
  updateSnake_score_food 1 riggedRand firstGame firstGameNext (by decide)

/-- C16: for a state with non-empty body `b` and direction `d` (and, on food, a
random source for which food placement returns) one tick returns with the body
`(b[0] + d) :: b` when `b[0] + d` is the food position and
`(b[0] + d) :: dropLast b` otherwise; the direction is unchanged. -/
theorem updateSnake_body (fuel : Nat) (rnd : Nat → Nat) (g : Game) (head : Vector2f)
    (rest : List Vector2f) (hb : g.snake.body = head :: rest)
    (hret : head + g.snake.direction = g.food.position →
      (generateFood fuel rnd (advance g head)).isSome = true) :
    ∃ g2, updateSnake fuel rnd g = some g2 ∧
      g2.snake.body =
        (if head + g.snake.direction = g.food.position then
          (head + g.snake.direction) :: g.snake.body
        else (head + g.snake.direction) :: g.snake.body.dropLast) ∧
      g2.snake.direction = g.snake.direction := by
  obtain ⟨g2, hg2⟩ := updateSnake_returns fuel rnd g head rest hb hret
  obtain ⟨head2, rest2, g1, hb2, rfl, -, hdir, hcase⟩ := updateSnake_some fuel rnd g g2 hg2
  have hcons := hb.symm.trans hb2
  obtain ⟨rfl, rfl⟩ := List.cons.inj hcons
  refine ⟨_, hg2, ?_, by rw [checkCollisions_snake, hdir]⟩
  rw [checkCollisions_snake, hb]
  rcases hcase with ⟨heat, hbody, -⟩ | ⟨hne, hbody, -⟩
  · rw [if_pos heat, hbody]
  · rw [if_neg hne, hbody]

theorem updateSnake_body_witness :
    ∃ g2, updateSnake 0 zeroes squareGame = some g2 ∧
      g2.snake.body =
        (if (⟨0, 0⟩ : Vector2f) + squareGame.snake.direction = squareGame.food.position then
          ((⟨0, 0⟩ : Vector2f) + squareGame.snake.direction) :: squareGame.snake.body
        else ((⟨0, 0⟩ : Vector2f) + squareGame.snake.direction)
          :: squareGame.snake.body.dropLast) ∧
      g2.snake.direction = squareGame.snake.direction :=
  updateSnake_body 0 zeroes squareGame ⟨0, 0⟩ [⟨20, 0⟩, ⟨20, 20⟩, ⟨0, 20⟩] (by decide)
    (by decide)

/-- C17: in every state reached from the initial state by ticks and polled
events, whether the window is open or not, the food position differs from every
cell of the snake body. -/
theorem reachable_food_off (rnd : Nat → Nat) (g : Game) (hr : Reachable rnd g) :
    ∀ seg ∈ g.snake.body, g.food.position ≠ seg := by
  intro seg hseg he
  exact (reachable_food_score rnd g hr).1 (he ▸ hseg)

theorem reachable_food_off_witness :
    Reachable riggedRand firstGameNext ∧
      ∀ seg ∈ firstGameNext.snake.body, firstGameNext.food.position ≠ seg :=
  ⟨Reachable.tick 1 firstGame firstGameNext
      (Reachable.start 1 firstGame (by decide)) (by decide),
    reachable_food_off riggedRand firstGameNext
      (Reachable.tick 1 firstGame firstGameNext
        (Reachable.start 1 firstGame (by decide)) (by decide))⟩

/-- C18: from a reachable state with the window open, a returning tick whose head
after the advance is the food position triggers neither the wall test nor the
self-collision scan and leaves the window open; hence a tick that closes the
window leaves the score and the food unchanged. -/
theorem updateSnake_eat_stays_open (fuel : Nat) (rnd : Nat → Nat) (g g2 : Game)
    (hr : Reachable rnd g) (hopen : g.windowOpen = true)
    (ht : updateSnake fuel rnd g = some g2) :
    (∀ head rest, g.snake.body = head :: rest →
        head + g.snake.direction = g.food.position →
        hitsWall (head + g.snake.direction) = false ∧
          head + g.snake.direction ∉ g.snake.body ∧
          g2.snake.body = (head + g.snake.direction) :: g.snake.body ∧
          g2.windowOpen = true) ∧
      (g2.windowOpen = false → g2.score = g.score ∧ g2.food = g.food) := by
  obtain ⟨-, hI⟩ := reachable_inv rnd g hr
  obtain ⟨-, -, -, -, hfc, hfb⟩ := hI hopen
  obtain ⟨head, rest, g1, hb, rfl, hw, -, hcase⟩ := updateSnake_some fuel rnd g g2 ht
  have heatcase : head + g.snake.direction = g.food.position →
      g1.snake.body = (head + g.snake.direction) :: head :: rest →
      hitsWall (head + g.snake.direction) = false ∧
        head + g.snake.direction ∉ g.snake.body ∧
        (checkCollisions g1).snake.body = (head + g.snake.direction) :: g.snake.body ∧
        (checkCollisions g1).windowOpen = true := by
    intro heat hbody
    have hwall : hitsWall (head + g.snake.direction) = false := by
      rw [heat]
      exact hitsWall_of_isCell _ hfc
    have hself : head + g.snake.direction ∉ g.snake.body := by
      rw [heat]
      exact hfb
    refine ⟨hwall, hself, by rw [checkCollisions_snake, hbody, hb], ?_⟩
    exact checkCollisions_stays_open g1 _ _ hbody (hw.trans hopen) hwall (hb ▸ hself)
  rcases hcase with ⟨heat, hbody, -⟩ | ⟨hne, -, hsc, hfood, -⟩
  · constructor
    · intro head2 rest2 hb2 _
      rw [hb] at hb2
      obtain ⟨rfl, rfl⟩ := List.cons.inj hb2
      exact heatcase heat hbody
    · intro hclosed
      rw [(heatcase heat hbody).2.2.2] at hclosed
      exact Bool.noConfusion hclosed
  · constructor
    · intro head2 rest2 hb2 heat2
      rw [hb] at hb2
      obtain ⟨rfl, rfl⟩ := List.cons.inj hb2
      exact absurd heat2 hne
    · intro _
      rw [checkCollisions_score, checkCollisions_food]
      exact ⟨hsc, hfood⟩

theorem updateSnake_eat_stays_open_witness :
    (∀ head rest, firstGame.snake.body = head :: rest →
        head + firstGame.snake.direction = firstGame.food.position →
        hitsWall (head + firstGame.snake.direction) = false ∧
          head + firstGame.snake.direction ∉ firstGame.snake.body ∧
          firstGameNext.snake.body = (head + firstGame.snake.direction) :: firstGame.snake.body ∧
          firstGameNext.windowOpen = true) ∧
      (firstGameNext.windowOpen = false →
        firstGameNext.score = firstGame.score ∧ firstGameNext.food = firstGame.food) :=
  updateSnake_eat_stays_open 1 riggedRand firstGame firstGameNext
    (Reachable.start 1 firstGame (by decide)) (by decide) (by decide)

/-- C19: in every state reached from the initial state by ticks and polled
events the score equals the body length minus 1. -/
theorem reachable_score (rnd : Nat → Nat) (g : Game) (hr : Reachable rnd g) :
    g.score = (g.snake.body.length : Int) - 1 :=
  (reachable_food_score rnd g hr).2

theorem reachable_score_witness :
    firstGameNext.score = (firstGameNext.snake.body.length : Int) - 1 :=
  reachable_score riggedRand firstGameNext
    (Reachable.tick 1 firstGame firstGameNext
      (Reachable.start 1 firstGame (by decide)) (by decide))

/-- C20: for a state with open window and pairwise distinct body cells, length at
least 2, whose head after the advance is the last body cell, lies inside the
window and is not the food position, one tick returns with the tail removed, the
scan of `body[1..]` finds no cell equal to the head, and the window stays open. -/
theorem updateSnake_onto_tail (fuel : Nat) (rnd : Nat → Nat) (g : Game) (head : Vector2f)
    (rest : List Vector2f) (hb : g.snake.body = head :: rest)
    (hlen : 2 ≤ g.snake.body.length) (hnd : g.snake.body.Nodup)
    (hlast : g.snake.body.getLast? = some (head + g.snake.direction))
    (hin : 0 ≤ (head + g.snake.direction).x ∧ (head + g.snake.direction).x < WIDTH ∧
      0 ≤ (head + g.snake.direction).y ∧ (head + g.snake.direction).y < HEIGHT)
    (hne : head + g.snake.direction ≠ g.food.position) (hopen : g.windowOpen = true) :
    ∃ g2, updateSnake fuel rnd g = some g2 ∧
      g2.snake.body = (head + g.snake.direction) :: g.snake.body.dropLast ∧
      g2.snake.body.length = g.snake.body.length ∧
      (¬ ∃ i, 1 ≤ i ∧ i < g2.snake.body.length ∧
        g2.snake.body[i]? = some (head + g.snake.direction)) ∧
      g2.windowOpen = true := by
  obtain ⟨g2, hg2⟩ := updateSnake_returns fuel rnd g head rest hb (fun h => absurd h hne)
  obtain ⟨head2, rest2, g1, hb2, rfl, hw, -, hcase⟩ := updateSnake_some fuel rnd g g2 hg2
  have hcons := hb.symm.trans hb2
  obtain ⟨rfl, rfl⟩ := List.cons.inj hcons
  have hself : head + g.snake.direction ∉ g.snake.body.dropLast :=
    not_mem_dropLast_of_getLast? _ _ hnd hlast
  have hwall : hitsWall (head + g.snake.direction) = false := by
    cases hh : hitsWall (head + g.snake.direction) with
    | false => rfl
    | true =>
      rw [hitsWall_iff] at hh
      simp only [WIDTH, HEIGHT] at hin
      omega
  rcases hcase with ⟨heat, -⟩ | ⟨-, hbody, -⟩
  · exact absurd heat hne
  · rw [← hb] at hbody
    refine ⟨_, hg2, by rw [checkCollisions_snake, hbody], ?_, ?_, ?_⟩
    · rw [checkCollisions_snake, hbody, List.length_cons, List.length_dropLast]
      omega
    · rw [checkCollisions_snake, hbody, ← mem_tail_iff_index]
      exact hself
    · exact checkCollisions_stays_open g1 _ _ hbody (hw.trans hopen) hwall hself

theorem updateSnake_onto_tail_witness :
    ∃ g2, updateSnake 0 zeroes squareGame = some g2 ∧
      g2.snake.body =
        ((⟨0, 0⟩ : Vector2f) + squareGame.snake.direction) :: squareGame.snake.body.dropLast ∧
      g2.snake.body.length = squareGame.snake.body.length ∧
      (¬ ∃ i, 1 ≤ i ∧ i < g2.snake.body.length ∧
        g2.snake.body[i]? = some ((⟨0, 0⟩ : Vector2f) + squareGame.snake.direction)) ∧
      g2.windowOpen = true :=
  updateSnake_onto_tail 0 zeroes squareGame ⟨0, 0⟩ [⟨20, 0⟩, ⟨20, 20⟩, ⟨0, 20⟩] (by decide)
    (by decide) (by decide) (by decide) (by decide) (by decide) (by decide)

end SnakeGame
